import Mathlib

/-!
Shallow embedding of export_gff3_feature.py.

The program is three functions over a GFF3 file with an optional embedded
FASTA block: find_feature scans annotation lines for the first record whose
type and attribute/value match; extract_fasta concatenates the sequence
lines after a ##FASTA marker; extract_sequence slices a 1-based inclusive
interval out of that string and reverse-complements it on the minus strand.

A file is modelled as an optional list of lines (none models a missing file,
raising FileNotFoundError on open). Lines are modelled without their trailing
newline: both scanning loops strip each line before any use, so this loses
nothing. Printed diagnostics are modelled by the Diag type.
-/

namespace GFF3

/-- Whitespace characters recognized by Python str.strip with no argument
(ASCII subset; exotic Unicode whitespace is not exercised by this program). -/
def isPySpace (c : Char) : Bool :=
  c = ' ' || c = '\t' || c = '\n' || c = '\r' || c = '\x0b' || c = '\x0c'

/-- Model of Python str.strip(): drop leading and trailing whitespace. -/
def pyStrip (s : String) : String :=
  String.mk (((s.data.dropWhile isPySpace).reverse.dropWhile isPySpace).reverse)

/-- Model of Python str.startswith. -/
def pyStartsWith (s pre : String) : Bool :=
  pre.data.isPrefixOf s.data

/-- Core of Python str.split(sep) for a one-character separator. -/
def splitCore (sep : Char) : List Char → List (List Char)
  | [] => [[]]
  | c :: r =>
    match splitCore sep r with
    | [] => [[]]
    | g :: gs => if c = sep then [] :: g :: gs else (c :: g) :: gs

/-- Model of Python str.split(sep) for a one-character separator. -/
def pySplit (s : String) (sep : Char) : List String :=
  (splitCore sep s.data).map (fun cs => String.mk cs)

/-- Split at the first occurrence of sep, as Python kv.split(sep, 1) does;
none when sep does not occur (the source guards this with sep in kv). -/
def splitFirst (sep : Char) : List Char → Option (List Char × List Char)
  | [] => none
  | c :: r =>
    if c = sep then some ([], r)
    else (splitFirst sep r).map (fun p => (c :: p.1, p.2))

/-- Numeric value of a list of decimal digits. -/
def digitsVal (cs : List Char) : Nat :=
  cs.foldl (fun a c => 10 * a + (c.toNat - 48)) 0

/-- Value of a nonempty all-digit character list, none otherwise. -/
def digitsOnly (ds : List Char) : Option Nat :=
  if !ds.isEmpty && ds.all Char.isDigit then some (digitsVal ds) else none

/-- Model of Python int(str): surrounding whitespace, one optional sign, then
at least one decimal digit; none models the ValueError raised otherwise
(digit-grouping underscores are not modelled, the inputs never carry them). -/
def pyInt? (s : String) : Option Int :=
  match (pyStrip s).data with
  | '+' :: ds => (digitsOnly ds).map (fun n => (n : Int))
  | '-' :: ds => (digitsOnly ds).map (fun n => -(n : Int))
  | ds => (digitsOnly ds).map (fun n => (n : Int))

/-- One iteration of the attr_dict loop body: an entry containing an equals
sign is split at its first one, key and value are stripped, and the key is
assigned (a later assignment to the same key overwrites); an entry without
an equals sign leaves the dict unchanged. -/
def attrStep (d : String → Option String) (kv : String) : String → Option String :=
  match splitFirst '=' kv.data with
  | some p =>
    fun q => if q = pyStrip (String.mk p.1) then some (pyStrip (String.mk p.2)) else d q
  | none => d

/-- The attribute dictionary built from one GFF3 attributes field, as the
source builds attr_dict: split the field on semicolons and fold the loop
body over the entries, starting from the empty dict. The dict is
represented by its lookup function, so applying it models attr_dict.get. -/
def attrDict (attributes : String) : String → Option String :=
  (pySplit attributes ';').foldl attrStep (fun _ => none)

/-- The feature data captured on a match: the dict appended to matches. -/
structure Feature where
  seqid : String
  start : Int
  stop : Int
  strand : String
deriving DecidableEq, Repr

/-- Diagnostic lines the program prints on standard output. -/
inductive Diag where
  | fileNotFound (path : String)
  | errorOccurred
  | multipleWarn
deriving DecidableEq, Repr

/-- What find_feature hands back: the returned value and the printed lines. -/
structure FindResult where
  res : Option Feature
  out : List Diag
deriving DecidableEq, Repr

/-- The nine tab-separated columns of a stripped line, or none when the line
does not split into exactly nine fields (such lines are skipped). Mirrors
the tuple unpacking: seqid, source, f_type, start, end, score, strand,
phrase, attributes; the fields the program never reads are dropped. -/
structure RawRec where
  seqid : String
  f_type : String
  start : String
  stop : String
  strand : String
  attributes : String
deriving DecidableEq, Repr

/-- Column split and nine-field check of one stripped line. -/
def parseCols (line : String) : Option RawRec :=
  match pySplit line '\t' with
  | [seqid, _source, f_type, start, stop, _score, strand, _phrase, attributes] =>
    some ⟨seqid, f_type, start, stop, strand, attributes⟩
  | _ => none

/-- The scanning loop of find_feature over the file's lines. Returns the
matches list at loop exit (the loop breaks at the first append, so at most
one element), or Except.error for a ValueError escaping from int() on a
matching record, which the enclosing try catches. -/
def findLoop (ft attr val : String) : List String → Except Unit (List Feature)
  | [] => .ok []
  | l :: rest =>
    let line := pyStrip l
    if pyStartsWith line "#" then findLoop ft attr val rest
    else
      match parseCols line with
      | none => findLoop ft attr val rest
      | some r =>
        if r.f_type = ft then
          if attrDict r.attributes attr = some val then
            match pyInt? r.start, pyInt? r.stop with
            | some s, some e => .ok [⟨r.seqid, s, e, r.strand⟩]
            | _, _ => .error ()
          else findLoop ft attr val rest
        else findLoop ft attr val rest

/-- find_feature: scan the file for the first record of the given type whose
attribute dict maps attr to val. A missing file (none) models the
FileNotFoundError branch; an escaping int() error models the generic except
branch; otherwise the matches list is inspected: a warning would be printed
were it longer than one, an empty list returns None, else matches[0]. -/
def find_feature (gff_path : String) (file : Option (List String))
    (ft attr val : String) : FindResult :=
  match file with
  | none => ⟨none, [.fileNotFound gff_path]⟩
  | some lines =>
    match findLoop ft attr val lines with
    | .error _ => ⟨none, [.errorOccurred]⟩
    | .ok ms =>
      if ms.length > 1 then ⟨ms.head?, [.multipleWarn]⟩
      else if ms.length = 0 then ⟨none, []⟩
      else ⟨ms.head?, []⟩

/-- The scanning loop of extract_fasta, carrying the fasta_region flag and
the fasta_sequence accumulator: a stripped line starting with ##FASTA turns
the flag on and is itself skipped; once the flag is on, every nonempty line
not starting with a greater-than sign is appended. -/
def fastaLoop (flag : Bool) (acc : List String) : List String → Bool × List String
  | [] => (flag, acc)
  | l :: rest =>
    let line := pyStrip l
    if pyStartsWith line "##FASTA" then fastaLoop true acc rest
    else if flag && line ≠ "" then
      if pyStartsWith line ">" then fastaLoop flag acc rest
      else fastaLoop flag (acc ++ [line]) rest
    else fastaLoop flag acc rest

/-- extract_fasta: concatenate the accumulated sequence lines. A missing
file (none) models the caught exception branch, which returns None; a
readable file always reaches the normal return, the join of the accumulator
(the empty string when nothing was accumulated). -/
def extract_fasta (file : Option (List String)) : Option String :=
  match file with
  | none => none
  | some lines => some (String.join (fastaLoop false [] lines).2)

/-- Normalization of one Python slice bound for a sequence of length n:
negative bounds count from the end, and both ends clamp into [0, n]. -/
def pyIndex (n i : Int) : Int :=
  if i < 0 then max (n + i) 0 else min i n

/-- Model of the Python slice s[a:b] on strings, with the usual negative
index and clamping semantics. -/
def pySlice (s : String) (a b : Int) : String :=
  String.mk ((s.data.drop (pyIndex (s.length : Int) a).toNat).take
    ((pyIndex (s.length : Int) b).toNat - (pyIndex (s.length : Int) a).toNat))

/-- The complement table of the source, extended by the default of
complement.get(base, base): characters outside the table are unchanged. -/
def complChar (c : Char) : Char :=
  if c = 'A' then 'T' else if c = 'T' then 'A'
  else if c = 'C' then 'G' else if c = 'G' then 'C'
  else if c = 'a' then 't' else if c = 't' then 'a'
  else if c = 'c' then 'g' else if c = 'g' then 'c'
  else c

/-- The minus-strand transformation of the source: reverse the sequence and
complement each character. -/
def revcomp (s : String) : String :=
  String.mk (s.data.reverse.map complChar)

/-- extract_sequence: slice fasta_data[start-1:end] and reverse-complement
it when the strand is a minus sign. The falsiness guard returns None when
fasta_data is None or empty or the feature is None (an empty feature dict,
the other falsy case, cannot arise from find_feature). -/
def extract_sequence (fasta_data : Option String) (feature : Option Feature) :
    Option String :=
  match fasta_data, feature with
  | some fd, some f =>
    if fd = "" then none
    else
      let sequence := pySlice fd (f.start - 1) f.stop
      some (if f.strand = "-" then revcomp sequence else sequence)
  | _, _ => none

/-! Specification-side definitions, to be compared with the embedded code. -/

/-- The lines find_feature collects, as the code filters them: not a comment
line after stripping, exactly nine tab-separated fields, matching type
field, and an attribute dict mapping attr to val. -/
def codeMatch (ft attr val : String) (l : String) : Bool :=
  let line := pyStrip l
  if pyStartsWith line "#" then false
  else
    match parseCols line with
    | none => false
    | some r => r.f_type = ft && attrDict r.attributes attr = some val

/-- The record a matching line yields: seqid and strand verbatim, start and
end parsed as integers; none when int() would fail on start or end. -/
def parseFeature (l : String) : Option Feature :=
  match parseCols (pyStrip l) with
  | none => none
  | some r =>
    match pyInt? r.start, pyInt? r.stop with
    | some s, some e => some ⟨r.seqid, s, e, r.strand⟩
    | _, _ => none

/-- First-match specification of find_feature on a readable file: the first
line passing the code's filters decides the result; no match is None with
nothing printed; a first match with unparseable coordinates is the reported
error path. -/
def firstMatchSpec (ft attr val : String) (lines : List String) : FindResult :=
  match lines.find? (codeMatch ft attr val) with
  | none => ⟨none, []⟩
  | some m =>
    match parseFeature m with
    | some f => ⟨some f, []⟩
    | none => ⟨none, [Diag.errorOccurred]⟩

/-- The literal match filter of the specification sentence: exactly nine
tab-separated fields, matching type field, attribute dict mapping attr to
val — with no condition on a leading hash character. -/
def claimMatch (ft attr val : String) (l : String) : Bool :=
  match parseCols (pyStrip l) with
  | none => false
  | some r => r.f_type = ft && attrDict r.attributes attr = some val

/-- The stripped key/value pair of one entry, none when it has no equals
sign. -/
def attrEntry (kv : String) : Option (String × String) :=
  (splitFirst '=' kv.data).map
    (fun p => (pyStrip (String.mk p.1), pyStrip (String.mk p.2)))

/-- The key/value pairs of an attributes field in order: entries containing
an equals sign, split at the first one, key and value stripped. -/
def attrEntries (attributes : String) : List (String × String) :=
  (pySplit attributes ';').filterMap attrEntry

/-- Last-occurrence lookup: the value of the last entry bearing the key. -/
def attrLastLookup (attributes attr : String) : Option String :=
  ((attrEntries attributes).reverse.find? (fun p => p.1 = attr)).map Prod.snd

/-- The 1-based inclusive substring from position a to position b. -/
def sub1 (s : String) (a b : Int) : String :=
  String.mk ((s.data.drop (a.toNat - 1)).take (b.toNat - a.toNat + 1))

/-- The sequence lines the specification says the FASTA block collects:
after the first marker line, every stripped line that is nonempty, is not a
header line, and is not itself a marker line. -/
def fastaCollect : Bool → List String → List String
  | _, [] => []
  | flag, l :: rest =>
    let line := pyStrip l
    if pyStartsWith line "##FASTA" then fastaCollect true rest
    else if flag && line ≠ "" && !pyStartsWith line ">" then
      line :: fastaCollect flag rest
    else fastaCollect flag rest

/-! Helper lemmas shared by the claim theorems. -/

/-- One step of the scanning loop, phrased through the line filter. -/
lemma findLoop_cons (ft attr val l : String) (rest : List String) :
    findLoop ft attr val (l :: rest) =
      if codeMatch ft attr val l then
        match parseFeature l with
        | some f => Except.ok [f]
        | none => Except.error ()
      else findLoop ft attr val rest := by
  by_cases h1 : pyStartsWith (pyStrip l) "#"
  · simp [findLoop, codeMatch, h1]
  · cases hc : parseCols (pyStrip l) with
    | none => simp [findLoop, codeMatch, h1, hc]
    | some r =>
      by_cases h2 : r.f_type = ft
      · by_cases h3 : attrDict r.attributes attr = some val
        · cases hs : pyInt? r.start <;> cases he : pyInt? r.stop <;>
            simp [findLoop, codeMatch, parseFeature, h1, hc, h2, h3, hs, he]
        · simp [findLoop, codeMatch, h1, hc, h2, h3]
      · simp [findLoop, codeMatch, h1, hc, h2]

/-- The scanning loop is decided by the first line passing the filter. -/
lemma findLoop_eq_find? (ft attr val : String) (lines : List String) :
    findLoop ft attr val lines =
      match lines.find? (codeMatch ft attr val) with
      | none => Except.ok []
      | some m =>
        match parseFeature m with
        | some f => Except.ok [f]
        | none => Except.error () := by
  induction lines with
  | nil => rfl
  | cons l rest ih =>
    rw [findLoop_cons]
    by_cases h : codeMatch ft attr val l
    · rw [if_pos h, List.find?_cons_of_pos rest h]
    · rw [if_neg h, List.find?_cons_of_neg rest (by simpa using h), ih]

/-- find_feature on a readable file refines the first-match specification. -/
lemma find_feature_eq_spec (gff_path ft attr val : String) (lines : List String) :
    find_feature gff_path (some lines) ft attr val = firstMatchSpec ft attr val lines := by
  unfold find_feature firstMatchSpec
  dsimp only
  rw [findLoop_eq_find?]
  cases h : lines.find? (codeMatch ft attr val) with
  | none => rfl
  | some m => cases hp : parseFeature m <;> simp [hp]

/-- C1: find_feature returns the first record in file order passing the
code's filters — not a comment line, exactly nine tab-separated fields,
type field equal to the query type, attribute dict mapping the query
attribute to the query value — with start and end parsed as integers and
seqid and strand captured verbatim; the scan stops there, and with no such
record the result is NotFound. Amended from the claim: a line starting
with a hash character is skipped even when it has nine fields and a
matching type and attribute, and a first match whose start or end is not
an integer is the reported error path rather than a returned record. -/
theorem find_feature_first_match (gff_path ft attr val : String) (lines : List String) :
    find_feature gff_path (some lines) ft attr val = firstMatchSpec ft attr val lines :=
  find_feature_eq_spec gff_path ft attr val lines

/-- C1 counterexample: a line that starts with a hash character yet has
exactly nine tab-separated fields, the queried type, and the queried
attribute value, with integer coordinates. The claim as stated makes
find_feature return this record; the code skips it and returns NotFound. -/
theorem find_feature_first_match_counterexample :
    claimMatch "gene" "ID" "Y" "#a\tb\tgene\t1\t2\t.\t+\t.\tID=Y" = true ∧
    (pySplit (pyStrip "#a\tb\tgene\t1\t2\t.\t+\t.\tID=Y") '\t').length = 9 ∧
    pyInt? "1" = some 1 ∧ pyInt? "2" = some 2 ∧
    find_feature "in.gff" (some ["#a\tb\tgene\t1\t2\t.\t+\t.\tID=Y"]) "gene" "ID" "Y" =
      ⟨none, []⟩ := by
  decide

/-- C2: for a plus-strand feature with 1 <= start <= end <= length of the
sequence block, extract_sequence is exactly the 1-based inclusive substring
from start to end, of length end - start + 1. -/
theorem extract_sequence_forward (fd : String) (f : Feature)
    (hstrand : f.strand = "+") (h1 : 1 ≤ f.start) (h2 : f.start ≤ f.stop)
    (h3 : f.stop ≤ (fd.length : Int)) :
    extract_sequence (some fd) (some f) = some (sub1 fd f.start f.stop) ∧
    ((sub1 fd f.start f.stop).length : Int) = f.stop - f.start + 1 := by
  have hne : fd ≠ "" := by
    intro h
    rw [h] at h3
    simp [String.length] at h3
    omega
  have hlo : pyIndex (fd.length : Int) (f.start - 1) = f.start - 1 := by
    unfold pyIndex
    rw [if_neg (by omega)]
    omega
  have hhi : pyIndex (fd.length : Int) f.stop = f.stop := by
    unfold pyIndex
    rw [if_neg (by omega)]
    omega
  have hslice : pySlice fd (f.start - 1) f.stop = sub1 fd f.start f.stop := by
    unfold pySlice sub1
    rw [hlo, hhi]
    have e1 : (f.start - 1).toNat = f.start.toNat - 1 := by omega
    have e3 : f.stop.toNat - (f.start.toNat - 1) = f.stop.toNat - f.start.toNat + 1 := by
      omega
    rw [e1, e3]
  constructor
  · unfold extract_sequence
    dsimp only
    rw [if_neg hne, hstrand, if_neg (by decide : ¬("+" : String) = "-"), hslice]
  · unfold sub1
    have : (String.mk ((fd.data.drop (f.start.toNat - 1)).take
        (f.stop.toNat - f.start.toNat + 1))).length =
        ((fd.data.drop (f.start.toNat - 1)).take (f.stop.toNat - f.start.toNat + 1)).length :=
      rfl
    rw [this, List.length_take, List.length_drop]
    have hlen : fd.data.length = fd.length := rfl
    rw [hlen]
    omega

/-- C2 witness. -/
theorem extract_sequence_forward_witness :
    extract_sequence (some "ACGTT") (some ⟨"s1", 2, 4, "+"⟩) =
      some (sub1 "ACGTT" 2 4) ∧
    ((sub1 "ACGTT" 2 4).length : Int) = 4 - 2 + 1 :=
  extract_sequence_forward "ACGTT" ⟨"s1", 2, 4, "+"⟩ rfl (by decide) (by decide) (by decide)

/-- C3 (amended): for a nonempty sequence block and a minus-strand feature,
extract_sequence is the reverse of the sliced substring with every
character complemented: A and T swap, C and G swap, lowercase maps to
lowercase, N and n are unchanged, and every character outside the table is
passed through unchanged. -/
theorem extract_sequence_minus (fd : String) (f : Feature)
    (hfd : fd ≠ "") (hstrand : f.strand = "-") :
    extract_sequence (some fd) (some f) =
      some (String.mk (((pySlice fd (f.start - 1) f.stop).data.reverse).map complChar)) ∧
    complChar 'A' = 'T' ∧ complChar 'T' = 'A' ∧ complChar 'C' = 'G' ∧ complChar 'G' = 'C' ∧
    complChar 'a' = 't' ∧ complChar 't' = 'a' ∧ complChar 'c' = 'g' ∧ complChar 'g' = 'c' ∧
    complChar 'N' = 'N' ∧ complChar 'n' = 'n' ∧
    (∀ c : Char, c ∉ (['A', 'T', 'C', 'G', 'a', 't', 'c', 'g'] : List Char) →
      complChar c = c) := by
  refine ⟨?_, rfl, rfl, rfl, rfl, rfl, rfl, rfl, rfl, rfl, rfl, ?_⟩
  · unfold extract_sequence
    dsimp only
    rw [if_neg hfd, hstrand, if_pos rfl]
    rfl
  · intro c hc
    simp only [List.mem_cons, List.not_mem_nil, or_false] at hc
    push_neg at hc
    obtain ⟨hA, hT, hC, hG, ha, ht, hc2, hg⟩ := hc
    simp [complChar, hA, hT, hC, hG, ha, ht, hc2, hg]

/-- C3 witness. -/
theorem extract_sequence_minus_witness :
    extract_sequence (some "ACGTT") (some ⟨"s1", 2, 4, "-"⟩) =
      some (String.mk (((pySlice "ACGTT" (2 - 1) 4).data.reverse).map complChar)) ∧
    complChar 'A' = 'T' ∧ complChar 'T' = 'A' ∧ complChar 'C' = 'G' ∧ complChar 'G' = 'C' ∧
    complChar 'a' = 't' ∧ complChar 't' = 'a' ∧ complChar 'c' = 'g' ∧ complChar 'g' = 'c' ∧
    complChar 'N' = 'N' ∧ complChar 'n' = 'n' ∧
    (∀ c : Char, c ∉ (['A', 'T', 'C', 'G', 'a', 't', 'c', 'g'] : List Char) →
      complChar c = c) :=
  extract_sequence_minus "ACGTT" ⟨"s1", 2, 4, "-"⟩ (by decide) rfl

/-- C3 counterexample: on the empty sequence block, the claim as stated
says the minus-strand result is the reverse complement of the slice, the
empty string; the code's falsiness guard returns None instead. -/
theorem extract_sequence_minus_counterexample :
    extract_sequence (some "") (some ⟨"s1", 1, 1, "-"⟩) = none ∧
    String.mk (((pySlice "" (1 - 1) 1).data.reverse).map complChar) = "" := by
  decide

/-- The flag of the FASTA loop is set exactly by a marker line. -/
lemma fastaLoop_fst (lines : List String) : ∀ flag acc,
    (fastaLoop flag acc lines).1 =
      (flag || lines.any fun l => pyStartsWith (pyStrip l) "##FASTA") := by
  induction lines with
  | nil => intro flag acc; simp [fastaLoop]
  | cons l rest ih =>
    intro flag acc
    by_cases hm : pyStartsWith (pyStrip l) "##FASTA"
    · simp [fastaLoop, hm, ih]
    · by_cases hf : flag
      · by_cases he : pyStrip l = ""
        · simp [fastaLoop, hm, hf, he, ih]
        · by_cases hg : pyStartsWith (pyStrip l) ">"
          · simp [fastaLoop, hm, hf, he, hg, ih]
          · simp [fastaLoop, hm, hf, he, hg, ih]
      · simp [fastaLoop, hm, hf, ih]

/-- The accumulator of the FASTA loop grows by exactly the collected lines. -/
lemma fastaLoop_snd (lines : List String) : ∀ flag acc,
    (fastaLoop flag acc lines).2 = acc ++ fastaCollect flag lines := by
  induction lines with
  | nil => intro flag acc; simp [fastaLoop, fastaCollect]
  | cons l rest ih =>
    intro flag acc
    by_cases hm : pyStartsWith (pyStrip l) "##FASTA"
    · simp [fastaLoop, fastaCollect, hm, ih]
    · by_cases hf : flag
      · by_cases he : pyStrip l = ""
        · simp [fastaLoop, fastaCollect, hm, hf, he, ih]
        · by_cases hg : pyStartsWith (pyStrip l) ">"
          · simp [fastaLoop, fastaCollect, hm, hf, he, hg, ih]
          · simp [fastaLoop, fastaCollect, hm, hf, he, hg, ih]
      · simp [fastaLoop, fastaCollect, hm, hf, ih]

/-- Nothing is collected while the flag is off and no marker appears. -/
lemma fastaCollect_no_marker (lines : List String)
    (h : ∀ l ∈ lines, pyStartsWith (pyStrip l) "##FASTA" = false) :
    fastaCollect false lines = [] := by
  induction lines with
  | nil => rfl
  | cons l rest ih =>
    have hm := h l (List.mem_cons_self l rest)
    simp only [fastaCollect, hm, Bool.false_eq_true, if_false, Bool.false_and]
    exact ih fun l hl => h l (List.mem_cons_of_mem _ hl)

/-- C4: with no marker line, and likewise with a marker but an empty
accumulator, extract_fasta returns the empty string through its normal
return — not None as the claim and the function's own docstring state.
The caller only ever tests falsiness, which conflates the two. -/
theorem extract_fasta_empty_result :
    (∀ lines, (∀ l ∈ lines, pyStartsWith (pyStrip l) "##FASTA" = false) →
      extract_fasta (some lines) = some "") ∧
    extract_fasta (some ["##FASTA"]) = some "" ∧
    some "" ≠ (none : Option String) := by
  refine ⟨?_, by decide, by decide⟩
  intro lines h
  unfold extract_fasta
  dsimp only
  rw [fastaLoop_snd, fastaCollect_no_marker lines h]
  rfl

/-- C4 witness. -/
theorem extract_fasta_empty_result_witness :
    extract_fasta (some ["a\tb\tgene"]) = some "" :=
  extract_fasta_empty_result.1 ["a\tb\tgene"] (by decide)

/-- C5 (amended): the in-block flag ends up set exactly when some stripped
line STARTS WITH the marker text (not only when it equals it), and the
result is the join of the lines collected after the first such marker
line: content before it is ignored, header lines and further marker lines
are skipped, nonempty stripped lines are accumulated in order. -/
theorem extract_fasta_marker_startswith (lines : List String) :
    ((fastaLoop false [] lines).1 =
      lines.any (fun l => pyStartsWith (pyStrip l) "##FASTA")) ∧
    extract_fasta (some lines) = some (String.join (fastaCollect false lines)) := by
  constructor
  · rw [fastaLoop_fst]
    simp
  · unfold extract_fasta
    dsimp only
    rw [fastaLoop_snd]
    rfl

/-- C5 counterexample: no line of this file equals the marker after
stripping, yet the line starting with the marker text turns in-block mode
on and content is accumulated; under the claim's equality test the block
would never start and nothing would be accumulated. -/
theorem extract_fasta_marker_equality_counterexample :
    extract_fasta (some ["##FASTAX", "ACGT"]) = some "ACGT" ∧
    (fastaLoop false [] ["##FASTAX", "ACGT"]).1 = true ∧
    pyStrip "##FASTAX" ≠ "##FASTA" ∧ pyStrip "ACGT" ≠ "##FASTA" := by
  decide

/-- C6: the failure paths of find_feature resolve to NotFound plus a
diagnostic instead of propagating: a missing file yields the distinct
file-not-found diagnostic and None, and a record that matches but whose
start or end does not parse as an integer — the ValueError from int(),
caught by the generic handler — yields the generic diagnostic and None. -/
theorem find_feature_error_paths :
    (∀ gff_path ft attr val,
      find_feature gff_path none ft attr val = ⟨none, [Diag.fileNotFound gff_path]⟩) ∧
    (∀ gff_path ft attr val (lines : List String) (m : String),
      lines.find? (codeMatch ft attr val) = some m →
      parseFeature m = none →
      find_feature gff_path (some lines) ft attr val = ⟨none, [Diag.errorOccurred]⟩) := by
  constructor
  · intro gff_path ft attr val
    rfl
  · intro gff_path ft attr val lines m hfind hparse
    rw [find_feature_eq_spec]
    unfold firstMatchSpec
    rw [hfind]
    simp [hparse]

/-- C6 witness. -/
theorem find_feature_error_paths_witness :
    find_feature "missing.gff" none "gene" "ID" "Y" =
      ⟨none, [Diag.fileNotFound "missing.gff"]⟩ ∧
    find_feature "in.gff" (some ["s1\tsrc\tgene\tabc\t2\t.\t+\t.\tID=Y"]) "gene" "ID" "Y" =
      ⟨none, [Diag.errorOccurred]⟩ :=
  ⟨find_feature_error_paths.1 "missing.gff" "gene" "ID" "Y",
   find_feature_error_paths.2 "in.gff" "gene" "ID" "Y"
     ["s1\tsrc\tgene\tabc\t2\t.\t+\t.\tID=Y"] "s1\tsrc\tgene\tabc\t2\t.\t+\t.\tID=Y"
     (by decide) (by decide)⟩

/-- C8: the multiple-match warning is unreachable: the scan breaks at the
first match, so the matches list never holds more than one element and no
input ever makes find_feature print the warning. -/
theorem no_multiple_match_warning (gff_path : String) (file : Option (List String))
    (ft attr val : String) :
    Diag.multipleWarn ∉ (find_feature gff_path file ft attr val).out := by
  cases file with
  | none => simp [find_feature]
  | some lines =>
    rw [find_feature_eq_spec]
    unfold firstMatchSpec
    cases hf : lines.find? (codeMatch ft attr val) with
    | none => simp
    | some m => cases hp : parseFeature m <;> simp [hp]

/-- C9: reverse-then-complement is an involution on strings over the
eight-letter case-preserving DNA alphabet. -/
theorem revcomp_involution (s : String)
    (h : ∀ c ∈ s.data, c ∈ (['A', 'T', 'C', 'G', 'a', 't', 'c', 'g'] : List Char)) :
    revcomp (revcomp s) = s := by
  unfold revcomp
  have hdata : (String.mk (s.data.reverse.map complChar)).data = s.data.reverse.map complChar :=
    rfl
  rw [hdata, ← List.map_reverse, List.reverse_reverse, List.map_map]
  have hid : s.data.map (complChar ∘ complChar) = s.data.map id := by
    apply List.map_congr_left
    intro c hc
    have := h c hc
    simp only [List.mem_cons, List.not_mem_nil, or_false] at this
    rcases this with rfl | rfl | rfl | rfl | rfl | rfl | rfl | rfl <;> rfl
  rw [hid, List.map_id]

/-- C9 witness. -/
theorem revcomp_involution_witness : revcomp (revcomp "ACGTacgt") = "ACGTacgt" :=
  revcomp_involution "ACGTacgt" (by decide)

/-- Folding the attr_dict loop body realizes last-occurrence lookup over
the well-formed entries, falling back to the initial dict. -/
lemma foldl_attrStep (kvs : List String) : ∀ (d : String → Option String) (q : String),
    (kvs.foldl attrStep d) q =
      match (kvs.filterMap attrEntry).reverse.find? (fun p => p.1 = q) with
      | some p => some p.2
      | none => d q := by
  induction kvs with
  | nil => intro d q; rfl
  | cons kv rest ih =>
    intro d q
    rw [List.foldl_cons, ih]
    cases hsf : splitFirst '=' kv.data with
    | none =>
      have hent : attrEntry kv = none := by simp [attrEntry, hsf]
      simp only [List.filterMap_cons, hent]
      have hstep : attrStep d kv = d := by simp [attrStep, hsf]
      rw [hstep]
    | some p =>
      have hent : attrEntry kv = some (pyStrip (String.mk p.1), pyStrip (String.mk p.2)) := by
        simp [attrEntry, hsf]
      simp only [List.filterMap_cons, hent, List.reverse_cons, List.find?_append]
      cases hf : (rest.filterMap attrEntry).reverse.find? (fun p => p.1 = q) with
      | some pr => simp [hf]
      | none =>
        simp only [hf, Option.none_or]
        by_cases hq : pyStrip (String.mk p.1) = q
        · rw [List.find?_cons_of_pos _ (by simp [hq])]
          simp only [attrStep, hsf]
          rw [if_pos hq.symm]
        · rw [List.find?_cons_of_neg _ (by simp [hq]), List.find?_nil]
          simp only [attrStep, hsf]
          rw [if_neg (fun h : q = pyStrip (String.mk p.1) => hq h.symm)]

/-- C7: looking up any attribute in the dict the code builds gives the
value of the last occurrence of that key among the entries obtained by
splitting the field on semicolons and each entry at its first equals sign,
with entries lacking an equals sign ignored and keys and values stripped
of surrounding whitespace. -/
theorem attrDict_last_wins (attributes attr : String) :
    attrDict attributes attr = attrLastLookup attributes attr := by
  unfold attrDict attrLastLookup attrEntries
  rw [foldl_attrStep]
  cases hf : ((pySplit attributes ';').filterMap attrEntry).reverse.find?
      (fun p => p.1 = attr) with
  | none => simp [hf]
  | some pr => simp [hf]

/-- A marker line is itself a comment line for the annotation scan. -/
lemma codeMatch_marker (ft attr val : String) :
    codeMatch ft attr val "##FASTA" = false := rfl

/-- C10: find_feature does not treat a FASTA marker line specially — the
scan of a file with the marker inserted equals the scan of the file
without it, and when the only matching record sits after the marker, in
the FASTA block, find_feature still returns it. -/
theorem find_feature_scans_past_fasta :
    (∀ gff_path ft attr val (pre post : List String),
      find_feature gff_path (some (pre ++ "##FASTA" :: post)) ft attr val =
        find_feature gff_path (some (pre ++ post)) ft attr val) ∧
    (∀ gff_path ft attr val (pre mid rest : List String) (m : String) (f : Feature),
      (∀ l ∈ pre, codeMatch ft attr val l = false) →
      (∀ l ∈ mid, codeMatch ft attr val l = false) →
      codeMatch ft attr val m = true →
      parseFeature m = some f →
      find_feature gff_path (some (pre ++ "##FASTA" :: (mid ++ m :: rest))) ft attr val =
        ⟨some f, []⟩) := by
  constructor
  · intro gff_path ft attr val pre post
    rw [find_feature_eq_spec, find_feature_eq_spec]
    unfold firstMatchSpec
    rw [List.find?_append, List.find?_append,
      List.find?_cons_of_neg post (by simp [codeMatch_marker])]
  · intro gff_path ft attr val pre mid rest m f h1 h2 hm hp
    rw [find_feature_eq_spec]
    unfold firstMatchSpec
    have hpre : pre.find? (codeMatch ft attr val) = none :=
      List.find?_eq_none.2 (fun x hx => by simp [h1 x hx])
    have hmid : mid.find? (codeMatch ft attr val) = none :=
      List.find?_eq_none.2 (fun x hx => by simp [h2 x hx])
    rw [List.find?_append, hpre, Option.none_or,
      List.find?_cons_of_neg _ (by simp [codeMatch_marker]),
      List.find?_append, hmid, Option.none_or,
      List.find?_cons_of_pos _ hm]
    simp [hp]

/-- C10 witness: the sole matching record lies after the FASTA marker and
is still found. -/
theorem find_feature_scans_past_fasta_witness :
    find_feature "in.gff" (some (["x"] ++ "##FASTA" ::
        ([">seq1"] ++ "s1\tsrc\tgene\t1\t2\t.\t+\t.\tID=Y" :: ["ACGT"]))) "gene" "ID" "Y" =
      ⟨some ⟨"s1", 1, 2, "+"⟩, []⟩ :=
  find_feature_scans_past_fasta.2 "in.gff" "gene" "ID" "Y" ["x"] [">seq1"] ["ACGT"]
    "s1\tsrc\tgene\t1\t2\t.\t+\t.\tID=Y" ⟨"s1", 1, 2, "+"⟩
    (by decide) (by decide) (by decide) (by decide)

end GFF3
